import Mathlib

/-!
Shallow embedding of the repository-analysis pipeline of
docweave-snackoverflow (src/doc_generator/{utils,analyzers,generator}.py),
with theorems settling the frozen claims about it.

Python strings are modelled as Lean `String` (a list of code points);
the Python string primitives the source uses (`startswith`, `strip`,
`split`, `join`, slicing, substring membership, `Path.suffix`) are
embedded explicitly over the character list.
-/

namespace DocWeave

/-- Characters removed by Python's default `str.strip()`. -/
def pyIsSpace (c : Char) : Bool :=
  c == ' ' || c == '\t' || c == '\n' || c == '\r' || c == '\x0b' || c == '\x0c'

/-- Python truthiness of a string: non-empty. -/
def pyTruthy (s : String) : Bool :=
  !s.data.isEmpty

/-- Python `s.startswith(pre)`. -/
def pyStartsWith (s pre : String) : Bool :=
  pre.data.isPrefixOf s.data

/-- Python `s.endswith(suf)` (used for glob patterns of the form `*suf`). -/
def pyEndsWith (s suf : String) : Bool :=
  suf.data.isSuffixOf s.data

/-- Python `pat in s` substring containment (also fnmatch `*pat*`). -/
def strContains (s pat : String) : Bool :=
  s.data.tails.any fun t => pat.data.isPrefixOf t

/-- Python `s.strip()` with the default whitespace set. -/
def pyStrip (s : String) : String :=
  String.mk (((s.data.dropWhile pyIsSpace).reverse.dropWhile pyIsSpace).reverse)

/-- Splitting a character list at every occurrence of a separator
character, Python `str.split(sep)` semantics (`"".split(sep) = [""]`). -/
def pySplitChar (sep : Char) : List Char → List (List Char)
  | [] => [[]]
  | x :: xs =>
    match pySplitChar sep xs with
    | r :: rs => if x == sep then [] :: r :: rs else (x :: r) :: rs
    | [] => [[]]

/-- Python `content.split('\n')`. -/
def pySplitLines (s : String) : List String :=
  (pySplitChar '\n' s.data).map String.mk

/-- Python `sep.join(parts)`. -/
def pyJoin (sep : String) : List String → String
  | [] => ""
  | [x] => x
  | x :: y :: xs => x ++ sep ++ pyJoin sep (y :: xs)

/-- Python slicing `s[:n]`. -/
def pyTake (s : String) (n : Nat) : String :=
  String.mk (s.data.take n)

/-- The part of a character list before the first occurrence of a
(non-empty) separator substring: Python `s.split(sep)[0]`. -/
def takeUntilSub (sep : List Char) : List Char → List Char
  | [] => []
  | x :: xs => if sep.isPrefixOf (x :: xs) then [] else x :: takeUntilSub sep xs

/-- Python `line.split('==')[0].split('>=')[0].split('~=')[0]`
(analyzers.py line 105). -/
def stripPin (l : String) : String :=
  String.mk (takeUntilSub "~=".data (takeUntilSub ">=".data (takeUntilSub "==".data l.data)))

/-- Python `pathlib.PurePath.suffix`: the extension of the final
component (`""` when the last dot is leading or trailing or absent). -/
def pySuffix (name : String) : String :=
  match (name.data.enum.filter fun p => p.2 == '.').getLast? with
  | some (i, _) =>
    if 0 < i ∧ i < name.data.length - 1 then String.mk (name.data.drop i) else ""
  | none => ""

/-!
Filesystem model: a repository snapshot is a finite tree of named
entries.  `FileUtils.get_project_structure` (utils.py lines 9-32)
iterates, filters, sorts and renders it.
-/

/-- A filesystem entry: a file with textual content, or a directory
with children. -/
inductive FSNode where
  | file (name : String) (content : String)
  | dir (name : String) (children : List FSNode)

/-- Name of an entry (`item.name`). -/
def nodeName : FSNode → String
  | .file n _ => n
  | .dir n _ => n

/-- Children of an entry (`item.iterdir()`; empty for a file). -/
def childrenOf : FSNode → List FSNode
  | .file _ _ => []
  | .dir _ c => c

/-- Whether an entry is a directory (`item.is_dir()`). -/
def isDirNode : FSNode → Bool
  | .file _ _ => false
  | .dir _ _ => true

/-- The filter of utils.py line 17-18: drop hidden entries and the
fixed denylist of directory names. -/
def keepEntry (it : FSNode) : Bool :=
  !(pyStartsWith (nodeName it) ".")
    && !(["node_modules", "__pycache__", "venv", "env"].contains (nodeName it))

/-- Stable insertion of an entry into a name-sorted list, placing it
before the first strictly greater name (CPython `sorted` is the stable
ascending sort by `<`; sibling `Path` comparison reduces to comparison
of the name strings by code point). -/
def insertSorted (a : FSNode) : List FSNode → List FSNode
  | [] => [a]
  | b :: bs =>
    if nodeName a < nodeName b then a :: b :: bs else b :: insertSorted a bs

/-- Python `sorted(items)` for sibling entries: stable ascending sort
by entry name. -/
def sortByName : List FSNode → List FSNode
  | [] => []
  | a :: as => insertSorted a (sortByName as)

mutual

/-- utils.py `add_directory(path, prefix, depth)`: stop past
`max_depth`, filter and sort the children, then render them. -/
def addDirectory (maxDepth : Nat) (items : List FSNode) (pre : String) (depth : Nat) :
    List String :=
  if depth > maxDepth then []
  else renderItems maxDepth (sortByName (items.filter keepEntry)) pre depth
termination_by (maxDepth + 1 - depth, sizeOf items, 1)
decreasing_by
  have hins : ∀ (a : FSNode) (m : List FSNode),
      sizeOf (insertSorted a m) = 1 + sizeOf a + sizeOf m := by
    intro a m
    induction m with
    | nil => simp [insertSorted]
    | cons b bs ih =>
      simp only [insertSorted]
      split
      · simp [List.cons.sizeOf_spec]
      · simp [List.cons.sizeOf_spec, ih]; omega
  have hsort : ∀ m : List FSNode, sizeOf (sortByName m) = sizeOf m := by
    intro m
    induction m with
    | nil => rfl
    | cons a as ih => simp [sortByName, hins, ih, List.cons.sizeOf_spec]
  have hfil : ∀ m : List FSNode, sizeOf (m.filter keepEntry) ≤ sizeOf m := by
    intro m
    induction m with
    | nil => simp
    | cons a as ih =>
      simp only [List.filter]
      split
      · simp [List.cons.sizeOf_spec]; omega
      · simp [List.cons.sizeOf_spec]; omega
  have h1 : sizeOf (sortByName (items.filter keepEntry)) ≤ sizeOf items := by
    rw [hsort]; exact hfil items
  rcases lt_or_eq_of_le h1 with h | h
  · exact Prod.Lex.right _ (Prod.Lex.left _ _ h)
  · rw [h]; exact Prod.Lex.right _ (Prod.Lex.right _ (by omega))

/-- The `for i, item in enumerate(items)` loop of utils.py lines 20-27:
emit one connector line per item (the last sibling gets the distinct
connector) and recurse into directories while `depth < max_depth`. -/
def renderItems (maxDepth : Nat) (l : List FSNode) (pre : String) (depth : Nat) :
    List String :=
  match l with
  | [] => []
  | it :: rest =>
    let isLast := rest.isEmpty
    let connector := if isLast then "└── " else "├── "
    let line := pre ++ connector ++ nodeName it
    let sub :=
      if isDirNode it && depth < maxDepth then
        addDirectory maxDepth (childrenOf it) (pre ++ (if isLast then "    " else "│   ")) (depth + 1)
      else []
    line :: (sub ++ renderItems maxDepth rest pre depth)
termination_by (maxDepth + 1 - depth, sizeOf l, 0)
decreasing_by
  · simp_wf
    rename_i h
    rw [Bool.and_eq_true, decide_eq_true_eq] at h
    apply Prod.Lex.left
    omega
  · simp_wf
    apply Prod.Lex.right
    apply Prod.Lex.left
    omega

end

/-- utils.py lines 11, 29-31: the list of rendered lines, root name
first. -/
def structureLines (t : FSNode) (maxDepth : Nat) : List String :=
  nodeName t :: addDirectory maxDepth (childrenOf t) "" 0

/-- `FileUtils.get_project_structure` (default `max_depth=3`). -/
def get_project_structure (t : FSNode) (maxDepth : Nat) : String :=
  pyJoin "\n" (structureLines t maxDepth)

/-!
ConfigScanner: `FileUtils.find_config_files` (utils.py lines 48-77) and
its two shallow extractors.  The JSON parse of package.json is an
external library call; its outcome is modelled as an optional record
(`none` = parse raised, caught by the `except` clause).
-/

/-- Parse outcome of package.json: the script keys in insertion order
(when a `scripts` section is present) and the `engines` section with
its optional `node` entry. -/
structure PkgData where
  scripts : Option (List String)
  engines : Option (Option String)

/-- `FileUtils._extract_package_json_info` (utils.py lines 79-99) over
the modelled parse outcome. -/
def extract_package_json_info (pkg : Option PkgData) : Option String :=
  match pkg with
  | none => none
  | some data =>
    let infoParts : List String :=
      (match data.scripts with
       | some ks => ["Scripts: " ++ pyJoin ", " (ks.take 3)]
       | none => []) ++
      (match data.engines with
       | some (some v) => ["Node: " ++ v]
       | some none => []
       | none => [])
    if infoParts.isEmpty then none else some (pyJoin " | " infoParts)

/-- `FileUtils._extract_python_info` (utils.py lines 101-117); the
content is `none` when reading the file raised (caught by `except`). -/
def extract_python_info (name : String) (content : Option String) : Option String :=
  match content with
  | none => none
  | some c =>
    if name = "requirements.txt" then
      let lines :=
        ((pySplitLines c).filter fun line =>
          pyTruthy (pyStrip line) && !(pyStartsWith line "#")).map pyStrip
      some ("Dependencies: " ++ toString lines.length ++ " packages")
    else if name = "setup.py" then
      if strContains c "python_requires" then some "Python package with setup.py" else none
    else none

/-- The fixed probe list of utils.py lines 53-60. -/
def config_patterns : List String :=
  ["config.json", "config.yaml", "config.yml",
   ".env.example", ".env.template",
   "docker-compose.yml", "docker-compose.yaml",
   "Dockerfile", "Makefile",
   "package.json", "requirements.txt", "setup.py",
   "pom.xml", "build.gradle", "go.mod", "Cargo.toml"]

/-- One step of the probe loop of utils.py lines 62-75: the root is
viewed through its entry names, a read function (content of a root file
by name, `none` when reading raises) and the package.json parse
outcome. -/
def configStep (rootNames : List String) (read : String → Option String)
    (pkg : Option PkgData) (acc : List String) (pattern : String) : List String :=
  if rootNames.contains pattern then
    let acc := acc ++ ["- " ++ pattern]
    if pattern = "package.json" then
      match extract_package_json_info pkg with
      | some info => acc ++ ["  " ++ info]
      | none => acc
    else if pattern = "requirements.txt" ∨ pattern = "setup.py" then
      match extract_python_info pattern (read pattern) with
      | some info => acc ++ ["  " ++ info]
      | none => acc
    else acc
  else acc

/-- `FileUtils.find_config_files` (utils.py lines 48-77). -/
def find_config_files (rootNames : List String) (read : String → Option String)
    (pkg : Option PkgData) : String :=
  let cfg := config_patterns.foldl (configStep rootNames read pkg) []
  if cfg.isEmpty then "No configuration files found" else pyJoin "\n" cfg

/-!
CodeProfiler: `CodeAnalyzer._find_entry_points` and
`CodeAnalyzer._analyze_dependencies` (analyzers.py lines 82-120).
-/

/-- Names of the root's direct entries, against which
`(repo_path / entry_file).exists()` probes. -/
def rootEntryNames (t : FSNode) : List String :=
  (childrenOf t).map nodeName

/-- The fixed canonical entry-point list of analyzers.py lines 86-89. -/
def common_entry_files : List String :=
  ["main.py", "app.py", "server.py", "index.js", "main.js",
   "app.js", "server.js", "main.go", "main.java", "Program.cs"]

/-- `CodeAnalyzer._find_entry_points` (analyzers.py lines 82-95):
probe the canonical names at the root only. -/
def find_entry_points (t : FSNode) : List String :=
  common_entry_files.filter fun n => (rootEntryNames t).contains n

/-- The dependency names collected from a requirements.txt content
(analyzers.py lines 104-106): non-blank lines whose raw text does not
start with `#`, with version pins cut off. -/
def reqDepNames (content : String) : List String :=
  ((pySplitLines content).filter fun line =>
    pyTruthy (pyStrip line) && !(pyStartsWith line "#")).map stripPin

/-- The `dependencies` list of `CodeAnalyzer._analyze_dependencies`
just before the final join (analyzers.py lines 99-118).  `req` is the
requirements.txt content when that file exists; `pkg` is `none` when
package.json is absent, `some none` when its JSON parse raised, and
`some (some keys)` for the keys of its `dependencies` mapping
(`data.get('dependencies', {})` gives `[]` when the key is missing). -/
def collectedDeps (req : Option String) (pkg : Option (Option (List String))) :
    List String :=
  (match req with
   | some content => (reqDepNames content).take 5
   | none => []) ++
  (match pkg with
   | some (some keys) => keys.take 5
   | some none => []
   | none => [])

/-- `CodeAnalyzer._analyze_dependencies` (analyzers.py lines 97-120). -/
def analyze_dependencies (req : Option String) (pkg : Option (Option (List String))) :
    String :=
  let deps := collectedDeps req pkg
  if deps.isEmpty then "" else pyJoin ", " (deps.take 10)

/-!
SpecFinder: `APISpecAnalyzer.find_api_specs` (analyzers.py lines
126-186).  The three `rglob` passes enumerate the same tree; they are
modelled over the list of all descendants in walk order.  For each
entry, the outcome of the JSON/YAML parse of its content is part of
the model (`parse = none` when parsing, or reading a directory,
raised — caught by the `except` clause), as is whether a directory
recursively contains a Markdown file.
-/

/-- The shallowly extracted shape of a parsed spec document: the
optional `info` section (title/version fields, each optional) and the
optional `paths` mapping (its keys in insertion order). -/
structure SpecInfo where
  title : Option String
  version : Option String

/-- Parsed spec document shape (see `SpecInfo`). -/
structure SpecData where
  info : Option SpecInfo
  paths : Option (List String)

/-- A descendant entry as the `rglob` passes see it. -/
structure FSEntry where
  name : String
  isDir : Bool
  parse : Option SpecData
  hasMarkdown : Bool

/-- `APISpecAnalyzer._extract_api_info` (analyzers.py lines 155-186)
over the modelled parse outcome. -/
def extract_api_info (p : Option SpecData) : Option String :=
  match p with
  | none => none
  | some d =>
    let infoLines : List String :=
      match d.info with
      | some i =>
        ["  Title: " ++ i.title.getD "Unknown" ++ ", Version: " ++ i.version.getD "Unknown"]
      | none => []
    let pathLines : List String :=
      match d.paths with
      | some ks =>
        ["  Endpoints: " ++ toString ks.length] ++
        (if (ks.take 3).isEmpty then []
         else ["  Sample endpoints: " ++ pyJoin ", " (ks.take 3)])
      | none => []
    some (pyJoin "\n" (infoLines ++ pathLines))

/-- The suffix check of analyzers.py line 133. -/
def specExtOk (e : FSEntry) : Bool :=
  [".yaml", ".yml", ".json"].contains (pySuffix e.name)

/-- The lines appended for one matched spec file (analyzers.py lines
134-137): the header, then the extraction when it is truthy. -/
def specBlock (e : FSEntry) : List String :=
  ["OpenAPI Spec: " ++ e.name] ++
  (match extract_api_info e.parse with
   | some c => if pyTruthy c then [c] else []
   | none => [])

/-- Pass 1 of `find_api_specs` (analyzers.py lines 130-137):
`rglob('*openapi*') + rglob('*swagger*')`, then the suffix check. -/
def pass1Lines (entries : List FSEntry) : List String :=
  ((entries.filter fun e => strContains e.name "openapi") ++
   (entries.filter fun e => strContains e.name "swagger")).foldl
    (fun acc e => if specExtOk e then acc ++ specBlock e else acc) []

/-- Pass 2 of `find_api_specs` (analyzers.py lines 139-143):
`rglob('*.graphql') + rglob('*schema*')`, then the suffix check. -/
def pass2Lines (entries : List FSEntry) : List String :=
  ((entries.filter fun e => pyEndsWith e.name ".graphql") ++
   (entries.filter fun e => strContains e.name "schema")).foldl
    (fun acc e =>
      if [".graphql", ".gql"].contains (pySuffix e.name) then
        acc ++ ["GraphQL Schema: " ++ e.name]
      else acc) []

/-- Pass 3 of `find_api_specs` (analyzers.py lines 145-151):
`rglob('*api*') + rglob('*docs*')`, keeping directories that
recursively contain a Markdown file. -/
def pass3Lines (entries : List FSEntry) : List String :=
  ((entries.filter fun e => strContains e.name "api") ++
   (entries.filter fun e => strContains e.name "docs")).foldl
    (fun acc e =>
      if e.isDir && e.hasMarkdown then
        acc ++ ["API Documentation: " ++ e.name ++ "/"]
      else acc) []

/-- `APISpecAnalyzer.find_api_specs` (analyzers.py lines 126-153). -/
def find_api_specs (entries : List FSEntry) : String :=
  let specs := pass1Lines entries ++ pass2Lines entries ++ pass3Lines entries
  if specs.isEmpty then "No API specifications found" else pyJoin "\n" specs

/-!
ContextAssembler: `ServiceDocGenerator._prepare_llm_context`
(generator.py lines 132-156) over the analysis record of
`_analyze_repository` (generator.py lines 75-85).
-/

/-- The analysis record of generator.py lines 77-83 (`readme` is
`None` when no README variant was found). -/
structure Analysis where
  structureText : String
  readme : Option String
  apiSpecs : String
  codeAnalysis : String
  configFiles : String

/-- The README block of generator.py line 142:
`f"**Existing README:**\n{analysis['readme'][:2000]}..."`. -/
def readmeBlock (r : String) : String :=
  "**Existing README:**\n" ++ pyTake r 2000 ++ "..."

/-- The `context_parts` list of generator.py lines 134-154: each of
the five sections appends its block when the value is truthy
(non-`None`, non-empty). -/
def contextParts (a : Analysis) : List String :=
  let parts : List String := []
  let parts := if pyTruthy a.structureText then
      parts ++ ["**Project Structure:**\n" ++ a.structureText] else parts
  let parts := match a.readme with
    | some r => if pyTruthy r then parts ++ [readmeBlock r] else parts
    | none => parts
  let parts := if pyTruthy a.apiSpecs then
      parts ++ ["**API Specifications:**\n" ++ a.apiSpecs] else parts
  let parts := if pyTruthy a.codeAnalysis then
      parts ++ ["**Code Analysis:**\n" ++ a.codeAnalysis] else parts
  let parts := if pyTruthy a.configFiles then
      parts ++ ["**Configuration:**\n" ++ a.configFiles] else parts
  parts

/-- `ServiceDocGenerator._prepare_llm_context` (generator.py lines
132-156). -/
def prepare_llm_context (a : Analysis) : String :=
  pyJoin "\n\n" (contextParts a)

/-- The five section blocks in fixed order, written after the amended
claim C1: a block is emitted exactly when the section's data is
non-empty (for the README: present and non-empty), placeholder markers
included. -/
def amendedBlocks (a : Analysis) : List String :=
  [if pyTruthy a.structureText
     then some ("**Project Structure:**\n" ++ a.structureText) else none,
   a.readme.bind fun r => if pyTruthy r then some (readmeBlock r) else none,
   if pyTruthy a.apiSpecs
     then some ("**API Specifications:**\n" ++ a.apiSpecs) else none,
   if pyTruthy a.codeAnalysis
     then some ("**Code Analysis:**\n" ++ a.codeAnalysis) else none,
   if pyTruthy a.configFiles
     then some ("**Configuration:**\n" ++ a.configFiles) else none].filterMap id

/-- Non-recursive rendering of a single directory level: every item on
one connector line, the distinct last-sibling connector on the final
item only.  `renderItems` at `maxDepth = 0` reduces to this. -/
def flatLines (pre : String) : List FSNode → List String
  | [] => []
  | [it] => [pre ++ "\u2514\u2500\u2500 " ++ nodeName it]
  | it :: it2 :: rest =>
    (pre ++ "\u251c\u2500\u2500 " ++ nodeName it) :: flatLines pre (it2 :: rest)

/-!
Helper lemmas.
-/

theorem pySplitChar_of_not_mem (sep : Char) (cs : List Char) (h : sep ∉ cs) :
    pySplitChar sep cs = [cs] := by
  induction cs with
  | nil => rfl
  | cons x xs ih =>
    have hx : ¬x == sep := by
      simp only [List.mem_cons] at h
      simp only [beq_iff_eq]
      intro he
      exact h (Or.inl he.symm)
    rw [pySplitChar, ih (fun hm => h (List.mem_cons_of_mem _ hm))]
    simp [hx]

theorem pySplitLines_single (l : String) (h : '\n' ∉ l.data) :
    pySplitLines l = [l] := by
  simp [pySplitLines, pySplitChar_of_not_mem '\n' l.data h]

theorem pyTruthy_of_startsWith (s pre : String) (hp : pre.data ≠ [])
    (h : pyStartsWith s pre = true) : pyTruthy s = true := by
  rcases hpre : pre.data with _ | ⟨c, cs⟩
  · exact absurd hpre hp
  · rcases hs : s.data with _ | ⟨d, ds⟩
    · rw [pyStartsWith, hpre, hs] at h
      simp at h
    · simp [pyTruthy, hs]

/-!
Claim C8.
-/

theorem foldl_configStep_absent (rootNames : List String) (read : String → Option String)
    (pkg : Option PkgData) (ps : List String) (acc : List String)
    (h : ∀ p ∈ ps, rootNames.contains p = false) :
    ps.foldl (configStep rootNames read pkg) acc = acc := by
  induction ps generalizing acc with
  | nil => rfl
  | cons p ps ih =>
    have hp : rootNames.contains p = false := h p (List.mem_cons_self p ps)
    rw [List.foldl_cons, configStep, hp]
    simp only [Bool.false_eq_true, if_false]
    exact ih acc fun q hq => h q (List.mem_cons_of_mem _ hq)

/-- Claim C8: for every repository root containing none of the 16
recognized configuration filenames, `find_config_files` returns the
single placeholder marker string "No configuration files found",
never an empty result. -/
theorem claim_C8 (rootNames : List String) (read : String → Option String)
    (pkg : Option PkgData) (h : ∀ p ∈ config_patterns, rootNames.contains p = false) :
    find_config_files rootNames read pkg = "No configuration files found" := by
  rw [find_config_files, foldl_configStep_absent rootNames read pkg _ _ h]
  rfl

/-- Witness for C8: a root with only `src` and `README.md` at top level. -/
theorem claim_C8_witness :
    find_config_files ["src", "README.md"] (fun _ => none) none =
      "No configuration files found" :=
  claim_C8 ["src", "README.md"] (fun _ => none) none (by decide)

/-!
Claim C9.
-/

/-- Claim C9: a `requirements.txt` whose content consists of exactly 3
dependency lines (non-blank after stripping, not starting with `#`)
and 2 comment lines (starting with `#`) yields exactly
"Dependencies: 3 packages". -/
theorem claim_C9 (content : String)
    (_hlen : (pySplitLines content).length = 5)
    (hdep : ((pySplitLines content).countP fun line =>
        pyTruthy (pyStrip line) && !(pyStartsWith line "#")) = 3)
    (_hcom : ((pySplitLines content).countP fun line => pyStartsWith line "#") = 2) :
    extract_python_info "requirements.txt" (some content) =
      some "Dependencies: 3 packages" := by
  have step : extract_python_info "requirements.txt" (some content) =
      some ("Dependencies: " ++
        toString (((pySplitLines content).filter fun line =>
          pyTruthy (pyStrip line) && !(pyStartsWith line "#")).map pyStrip).length ++
        " packages") := rfl
  rw [step, List.length_map, ← List.countP_eq_length_filter, hdep]
  rfl

/-- Witness for C9: three package lines and two comment lines. -/
theorem claim_C9_witness :
    extract_python_info "requirements.txt" (some "alpha\nbeta==1.2\ngamma\n# one\n# two") =
      some "Dependencies: 3 packages" :=
  claim_C9 "alpha\nbeta==1.2\ngamma\n# one\n# two" (by decide) (by decide) (by decide)

/-!
Claim C10.
-/

/-- Claim C10: in both requirements.txt readers, a line with leading
whitespace whose first non-whitespace character is `#` is counted as a
dependency, not a comment: the blank test uses the stripped line, the
comment test the raw line.  `_extract_python_info` counts it and
`_analyze_dependencies` lists its pin-stripped text. -/
theorem claim_C10 (l : String) (hnl : '\n' ∉ l.data)
    (hraw : pyStartsWith l "#" = false)
    (hstrip : pyStartsWith (pyStrip l) "#" = true) :
    extract_python_info "requirements.txt" (some l) = some "Dependencies: 1 packages" ∧
    analyze_dependencies (some l) none = stripPin l := by
  have hone : pySplitLines l = [l] := pySplitLines_single l hnl
  have hkeep : (pyTruthy (pyStrip l) && !(pyStartsWith l "#")) = true := by
    rw [pyTruthy_of_startsWith (pyStrip l) "#" (by decide) hstrip, hraw]
    rfl
  constructor
  · have step : extract_python_info "requirements.txt" (some l) =
        some ("Dependencies: " ++
          toString (((pySplitLines l).filter fun line =>
            pyTruthy (pyStrip line) && !(pyStartsWith line "#")).map pyStrip).length ++
          " packages") := rfl
    rw [step, hone]
    simp only [List.filter, hkeep]
    simp only [List.map_cons, List.map_nil, List.length_cons, List.length_nil]
    rfl
  · rw [analyze_dependencies, collectedDeps, reqDepNames, hone]
    simp only [List.filter, hkeep]
    rfl

/-- Witness for C10: the line "  # foo". -/
theorem claim_C10_witness :
    extract_python_info "requirements.txt" (some "  # foo") =
      some "Dependencies: 1 packages" ∧
    analyze_dependencies (some "  # foo") none = stripPin "  # foo" :=
  claim_C10 "  # foo" (by decide) (by decide) (by decide)

/-!
Claim C2.
-/

/-- Claim C2: with both manifests present, the collected dependency
list is at most the first 5 requirements.txt names followed by at most
the first 5 package.json dependency keys (Python-sourced first), the
combined list never exceeds 10 names, and the summary is their
comma-join (empty string when nothing was collected). -/
theorem claim_C2 (content : String) (keys : List String) :
    collectedDeps (some content) (some (some keys)) =
      (reqDepNames content).take 5 ++ keys.take 5 ∧
    (collectedDeps (some content) (some (some keys))).length ≤ 10 ∧
    analyze_dependencies (some content) (some (some keys)) =
      (if (collectedDeps (some content) (some (some keys))).isEmpty then ""
       else pyJoin ", " (collectedDeps (some content) (some (some keys)))) := by
  have hlen : (collectedDeps (some content) (some (some keys))).length ≤ 10 := by
    rw [collectedDeps]
    simp only [List.length_append, List.length_take]
    omega
  refine ⟨rfl, hlen, ?_⟩
  rw [analyze_dependencies, List.take_of_length_le hlen]
/-!
Claim C6.
-/

/-- Claim C6: `_find_entry_points` returns the subset of the fixed
canonical filename list that exists at the root, in list order; in
particular a root whose only canonical entry name is `main.py` yields
exactly `["main.py"]`, whatever exists in subdirectories. -/
theorem claim_C6 :
    (∀ t : FSNode,
        (find_entry_points t).Sublist common_entry_files ∧
        ∀ n, n ∈ find_entry_points t ↔ n ∈ common_entry_files ∧ n ∈ rootEntryNames t) ∧
    (∀ t : FSNode, "main.py" ∈ rootEntryNames t →
        (∀ n, n ∈ common_entry_files → n ∈ rootEntryNames t → n = "main.py") →
        find_entry_points t = ["main.py"]) := by
  constructor
  · intro t
    refine ⟨List.filter_sublist _, fun n => ?_⟩
    simp [find_entry_points, List.mem_filter, List.elem_iff, and_comm]
  · intro t h1 h2
    have hno : ∀ n, n ∈ common_entry_files → n ≠ "main.py" → n ∉ rootEntryNames t :=
      fun n hn hne hm => absurd (h2 n hn hm) hne
    have e2 := hno "app.py" (by decide) (by decide)
    have e3 := hno "server.py" (by decide) (by decide)
    have e4 := hno "index.js" (by decide) (by decide)
    have e5 := hno "main.js" (by decide) (by decide)
    have e6 := hno "app.js" (by decide) (by decide)
    have e7 := hno "server.js" (by decide) (by decide)
    have e8 := hno "main.go" (by decide) (by decide)
    have e9 := hno "main.java" (by decide) (by decide)
    have e10 := hno "Program.cs" (by decide) (by decide)
    simp [find_entry_points, common_entry_files, List.filter,
      h1, e2, e3, e4, e5, e6, e7, e8, e9, e10]

/-- Witness for C6: `main.py` at the root, `app.py` only inside a
subdirectory. -/
theorem claim_C6_witness :
    find_entry_points
      (FSNode.dir "repo" [FSNode.file "main.py" "",
        FSNode.dir "sub" [FSNode.file "app.py" ""]]) = ["main.py"] :=
  claim_C6.2
    (FSNode.dir "repo" [FSNode.file "main.py" "",
      FSNode.dir "sub" [FSNode.file "app.py" ""]])
    (by decide) (by decide)

/-!
Claim C3.
-/

/-- Claim C3: the README section block built by the assembler is the
label plus exactly the first 2000 characters of the content plus the
3-character ellipsis, for a 5000-character README in particular, and
the same truncation is applied for every non-empty README the analysis
carries. -/
theorem claim_C3 :
    (∀ r : String, r.length = 5000 →
        readmeBlock r = "**Existing README:**\n" ++ pyTake r 2000 ++ "..." ∧
        (pyTake r 2000).length = 2000 ∧ ("..." : String).length = 3) ∧
    (∀ (a : Analysis) (r : String), a.readme = some r → pyTruthy r = true →
        readmeBlock r ∈ contextParts a) := by
  constructor
  · intro r hr
    refine ⟨rfl, ?_, rfl⟩
    have : (pyTake r 2000).length = (r.data.take 2000).length := rfl
    rw [this, List.length_take]
    have hlen : r.data.length = 5000 := hr
    omega
  · intro a r hr htr
    rcases a with ⟨st, rd, api, code, cfg⟩
    simp only at hr
    subst hr
    simp only [contextParts, htr, if_true]
    split_ifs <;> simp [List.mem_append]

/-- Witness for C3: a 5000-character README made of `a`s, and an
analysis record carrying the README "hello". -/
theorem claim_C3_witness :
    (readmeBlock (String.mk (List.replicate 5000 'a')) =
        "**Existing README:**\n" ++ pyTake (String.mk (List.replicate 5000 'a')) 2000 ++ "..." ∧
      (pyTake (String.mk (List.replicate 5000 'a')) 2000).length = 2000 ∧
      ("..." : String).length = 3) ∧
    readmeBlock "hello" ∈ contextParts (Analysis.mk "" (some "hello") "" "" "") :=
  ⟨claim_C3.1 (String.mk (List.replicate 5000 'a'))
      (by rw [show (String.mk (List.replicate 5000 'a')).length =
            (List.replicate 5000 'a').length from rfl, List.length_replicate]),
   claim_C3.2 (Analysis.mk "" (some "hello") "" "" "") "hello" rfl (by decide)⟩

/-!
Claim C1.
-/

/-- Counterexample to C1 as stated: an analysis whose only non-empty
field is the API-spec placeholder marker still gets a bold-labeled
block — the assembler tests only truthiness, so the placeholder is
emitted rather than suppressed (the claim would demand the empty
context). -/
theorem claim_C1_counterexample :
    prepare_llm_context (Analysis.mk "" none "No API specifications found" "" "") =
      "**API Specifications:**\nNo API specifications found" ∧
    prepare_llm_context (Analysis.mk "" none "No API specifications found" "" "") ≠ "" := by
  constructor
  · rfl
  · decide

/-- Claim C1 (amended): the assembler visits the five sections in the
fixed order structure, README, API specs, code analysis,
configuration, emits a bold-labeled block exactly when the section's
data is non-empty (for the README: present and non-empty) — even when
that data is a placeholder marker — and joins the emitted blocks with
a blank-line separator. -/
theorem claim_C1_amended (a : Analysis) :
    prepare_llm_context a = pyJoin "\n\n" (amendedBlocks a) := by
  rcases a with ⟨st, rd, api, code, cfg⟩
  rcases rd with _ | r <;>
    simp only [prepare_llm_context, contextParts, amendedBlocks, Option.bind] <;>
    split_ifs <;>
    simp [List.filterMap]

/-!
Claims C4 and C5: the OpenAPI/Swagger pass.
-/

theorem pyStartsWith_append_self (p s : String) : pyStartsWith (p ++ s) p = true := by
  simp [pyStartsWith, String.data_append, List.isPrefixOf_iff_prefix]

theorem pyStartsWith_OA_false (s : String) (h : s.data.head? = some ' ') :
    pyStartsWith s "OpenAPI Spec: " = false := by
  rcases s with ⟨d⟩
  rcases d with _ | ⟨c, t⟩
  · simp at h
  · simp only [List.head?_cons, Option.some.injEq] at h
    subst h
    rfl

theorem specContent_head (d : SpecData) (c : String)
    (hex : extract_api_info (some d) = some c) (ht : pyTruthy c = true) :
    c.data.head? = some ' ' := by
  rcases d with ⟨info, paths⟩
  rcases info with _ | i <;> rcases paths with _ | ks
  · simp [extract_api_info, pyJoin] at hex
    rw [← hex] at ht
    exact absurd ht (by decide)
  · rcases hk : (ks.take 3).isEmpty with _ | _ <;>
      simp [extract_api_info, pyJoin, hk] at hex <;>
      rw [← hex] <;>
      simp [String.data_append]
  · simp [extract_api_info, pyJoin] at hex
    rw [← hex]
    simp [String.data_append]
  · rcases hk : (ks.take 3).isEmpty with _ | _ <;>
      simp [extract_api_info, pyJoin, hk] at hex <;>
      rw [← hex] <;>
      simp [String.data_append]

theorem countP_specBlock (e : FSEntry) :
    (specBlock e).countP (fun s => pyStartsWith s "OpenAPI Spec: ") = 1 := by
  have hhdr : pyStartsWith ("OpenAPI Spec: " ++ e.name) "OpenAPI Spec: " = true :=
    pyStartsWith_append_self _ _
  rcases hp : e.parse with _ | d
  · simp [specBlock, extract_api_info, hp, List.countP_cons, hhdr]
  · rcases hex : extract_api_info (some d) with _ | c
    · simp [extract_api_info] at hex
    · rcases ht : pyTruthy c with _ | _
      · simp [specBlock, hp, hex, ht, List.countP_cons, hhdr]
      · have hcf : pyStartsWith c "OpenAPI Spec: " = false :=
          pyStartsWith_OA_false c (specContent_head d c hex ht)
        simp [specBlock, hp, hex, ht, List.countP_cons, hhdr, hcf]

theorem countP_flatMap_specBlock (l : List FSEntry) :
    ((l.flatMap specBlock).countP fun s => pyStartsWith s "OpenAPI Spec: ") = l.length := by
  induction l with
  | nil => rfl
  | cons e l ih =>
    simp [List.countP_append, countP_specBlock, ih]
    omega

theorem foldl_if_append (P : FSEntry → Bool) (f : FSEntry → List String)
    (l : List FSEntry) (acc : List String) :
    l.foldl (fun acc e => if P e then acc ++ f e else acc) acc
      = acc ++ (l.filter P).flatMap f := by
  induction l generalizing acc with
  | nil => simp
  | cons e l ih =>
    rcases hP : P e with _ | _ <;>
      simp [List.foldl_cons, hP, List.filter_cons, ih, List.append_assoc]

/-- Counterexample to C4 as stated: the keyword match of the first
pass is case-sensitive, not case-insensitive — a file named
`OPENAPI.yaml` is not selected at all — and an entry matching both
keywords (`openapi_swagger.json`) gets one header line per matched
keyword, not one per entry. -/
theorem claim_C4_counterexample :
    find_api_specs [FSEntry.mk "OPENAPI.yaml" false none false] =
      "No API specifications found" ∧
    find_api_specs [FSEntry.mk "openapi_swagger.json" false none false] =
      "OpenAPI Spec: openapi_swagger.json\nOpenAPI Spec: openapi_swagger.json" := by
  constructor <;> decide

/-- Claim C4 (amended): the first pass selects exactly those entries
whose name contains `openapi` or `swagger` as a case-sensitive
substring and whose extension is `.yaml`, `.yml` or `.json`, emitting
one header line per selected entry per matched keyword (all
openapi-keyword matches before all swagger-keyword matches; an entry
matching both keywords is emitted twice). -/
theorem claim_C4_amended (entries : List FSEntry) :
    pass1Lines entries =
      ((entries.filter fun e => strContains e.name "openapi" && specExtOk e).flatMap specBlock)
        ++ ((entries.filter fun e => strContains e.name "swagger" && specExtOk e).flatMap specBlock) ∧
    ((pass1Lines entries).countP fun s => pyStartsWith s "OpenAPI Spec: ") =
      (entries.countP fun e => strContains e.name "openapi" && specExtOk e)
        + (entries.countP fun e => strContains e.name "swagger" && specExtOk e) := by
  have swap : ∀ (p : FSEntry → Bool) (l : List FSEntry),
      (l.filter fun e => specExtOk e && p e) = l.filter fun e => p e && specExtOk e :=
    fun p l => List.filter_congr fun e _ => by rw [Bool.and_comm]
  have h1 : pass1Lines entries =
      ((entries.filter fun e => strContains e.name "openapi" && specExtOk e).flatMap specBlock)
        ++ ((entries.filter fun e => strContains e.name "swagger" && specExtOk e).flatMap specBlock) := by
    rw [pass1Lines, foldl_if_append]
    rw [List.filter_append, List.filter_filter, List.filter_filter, swap, swap,
      List.nil_append, List.flatMap_append]
  refine ⟨h1, ?_⟩
  rw [h1, List.countP_append, countP_flatMap_specBlock, countP_flatMap_specBlock,
    List.countP_eq_length_filter, List.countP_eq_length_filter]

/-- Claim C5: for a discovered spec file whose parse failed or whose
parsed data has neither an `info` nor a `paths` section, the
extraction contributes nothing while the header line naming the file
is still emitted, both for the per-file block and through
`find_api_specs`'s first pass (no failure escapes). -/
theorem claim_C5 (e : FSEntry)
    (h : e.parse = none ∨ e.parse = some (SpecData.mk none none)) :
    specBlock e = ["OpenAPI Spec: " ++ e.name] ∧
    (strContains e.name "openapi" = true → strContains e.name "swagger" = false →
      specExtOk e = true → pass1Lines [e] = ["OpenAPI Spec: " ++ e.name]) := by
  have hb : specBlock e = ["OpenAPI Spec: " ++ e.name] := by
    rcases h with h | h <;> simp [specBlock, extract_api_info, h, pyJoin, pyTruthy]
  refine ⟨hb, fun h1 h2 h3 => ?_⟩
  simp [pass1Lines, List.filter, h1, h2, h3, hb]

/-- Witness for C5: `openapi.yaml` whose parse raised. -/
theorem claim_C5_witness :
    specBlock (FSEntry.mk "openapi.yaml" false none false) = ["OpenAPI Spec: openapi.yaml"] ∧
    pass1Lines [FSEntry.mk "openapi.yaml" false none false] = ["OpenAPI Spec: openapi.yaml"] :=
  ⟨(claim_C5 (FSEntry.mk "openapi.yaml" false none false) (Or.inl rfl)).1,
   (claim_C5 (FSEntry.mk "openapi.yaml" false none false) (Or.inl rfl)).2
     (by decide) (by decide) (by decide)⟩

/-!
Claim C7: the structure renderer at `maxDepth = 0`.
-/

theorem renderItems_zero (l : List FSNode) (pre : String) :
    renderItems 0 l pre 0 = flatLines pre l := by
  induction l with
  | nil => simp [renderItems, flatLines]
  | cons it rest ih =>
    cases rest with
    | nil => simp [renderItems, flatLines]
    | cons it2 rest2 => simp [renderItems, flatLines, ih]

theorem pyStartsWith_mid_conn (n : String) :
    pyStartsWith ("├── " ++ n) "└── " = false := by
  simp only [pyStartsWith, String.data_append]
  rfl

theorem flatLines_countP_last (l : List FSNode) (hne : l ≠ []) :
    ((flatLines "" l).countP fun s => pyStartsWith s "└── ") = 1 := by
  induction l with
  | nil => exact absurd rfl hne
  | cons it rest ih =>
    cases rest with
    | nil =>
      simp [flatLines, List.countP_cons, pyStartsWith_append_self]
    | cons it2 rest2 =>
      simp [flatLines, List.countP_cons, ih (List.cons_ne_nil it2 rest2),
        pyStartsWith_mid_conn]

theorem flatLines_getLastD (l : List FSNode) (hne : l ≠ []) (d : String) (e : FSNode) :
    (flatLines "" l).getLastD d = "" ++ "└── " ++ nodeName (l.getLastD e) := by
  induction l generalizing d e with
  | nil => exact absurd rfl hne
  | cons it rest ih =>
    cases rest with
    | nil => simp [flatLines]
    | cons it2 rest2 =>
      rw [flatLines, List.getLastD_cons, List.getLastD_cons]
      exact ih (List.cons_ne_nil it2 rest2) _ _

theorem mem_insertSorted (x a : FSNode) (l : List FSNode) :
    x ∈ insertSorted a l ↔ x = a ∨ x ∈ l := by
  induction l with
  | nil => simp [insertSorted]
  | cons b bs ih =>
    rw [insertSorted]
    split
    · simp
    · simp [ih]
      tauto

theorem pairwise_insertSorted (a : FSNode) (l : List FSNode)
    (h : l.Pairwise fun x y => nodeName x ≤ nodeName y) :
    (insertSorted a l).Pairwise fun x y => nodeName x ≤ nodeName y := by
  induction l with
  | nil => simp [insertSorted]
  | cons b bs ih =>
    rw [List.pairwise_cons] at h
    rw [insertSorted]
    split
    · rename_i hab
      rw [List.pairwise_cons]
      refine ⟨?_, List.pairwise_cons.mpr h⟩
      intro x hx
      rcases List.mem_cons.mp hx with hx | hx
      · rw [hx]; exact le_of_lt hab
      · exact le_trans (le_of_lt hab) (h.1 x hx)
    · rename_i hab
      rw [List.pairwise_cons]
      refine ⟨?_, ih h.2⟩
      intro x hx
      rcases (mem_insertSorted x a bs).mp hx with hx | hx
      · rw [hx]; exact le_of_not_lt hab
      · exact h.1 x hx

theorem perm_insertSorted (a : FSNode) (l : List FSNode) :
    (insertSorted a l).Perm (a :: l) := by
  induction l with
  | nil => exact List.Perm.refl _
  | cons b bs ih =>
    rw [insertSorted]
    split
    · exact List.Perm.refl _
    · exact (ih.cons b).trans (List.Perm.swap a b bs)

theorem sortByName_props (l : List FSNode) :
    (sortByName l).Pairwise (fun x y => nodeName x ≤ nodeName y) ∧ (sortByName l).Perm l := by
  induction l with
  | nil => exact ⟨List.Pairwise.nil, List.Perm.refl _⟩
  | cons a as ih =>
    rw [sortByName]
    exact ⟨pairwise_insertSorted a _ ih.1, (perm_insertSorted a _).trans (ih.2.cons a)⟩

/-- Claim C7: at `maxDepth = 0` the renderer lists the root name and
exactly one connector line per direct non-excluded child in ascending
name order, with no recursion into subdirectories; the distinct
last-sibling connector appears exactly once at the level, on the final
line, which names the last element of the name-sorted (hence
lexicographically greatest) kept children. -/
theorem claim_C7 :
    (∀ t : FSNode,
        structureLines t 0 =
          nodeName t :: flatLines "" (sortByName ((childrenOf t).filter keepEntry))) ∧
    (∀ l : List FSNode, l ≠ [] →
        ((flatLines "" l).countP fun s => pyStartsWith s "└── ") = 1) ∧
    (∀ (l : List FSNode) (d : String) (e : FSNode), l ≠ [] →
        (flatLines "" l).getLastD d = "" ++ "└── " ++ nodeName (l.getLastD e)) ∧
    (∀ l : List FSNode,
        (sortByName l).Pairwise (fun x y => nodeName x ≤ nodeName y) ∧
        (sortByName l).Perm l) := by
  refine ⟨fun t => ?_, fun l h => flatLines_countP_last l h,
    fun l d e h => flatLines_getLastD l h d e, sortByName_props⟩
  rw [structureLines, addDirectory]
  simp only [gt_iff_lt, Nat.lt_irrefl, if_false]
  rw [renderItems_zero]

/-- Witness for C7: a root with children `b.py`, `a.py` and an
excluded hidden entry. -/
theorem claim_C7_witness :
    structureLines
        (FSNode.dir "repo" [FSNode.file "b.py" "", FSNode.file "a.py" "",
          FSNode.file ".git" ""]) 0 =
      "repo" :: flatLines "" (sortByName ([FSNode.file "b.py" "", FSNode.file "a.py" "",
        FSNode.file ".git" ""].filter keepEntry)) ∧
    ((flatLines "" [FSNode.file "a.py" "", FSNode.file "b.py" ""]).countP
        fun s => pyStartsWith s "└── ") = 1 ∧
    (flatLines "" [FSNode.file "a.py" "", FSNode.file "b.py" ""]).getLastD "" =
      "" ++ "└── " ++ nodeName ([FSNode.file "a.py" "",
        FSNode.file "b.py" ""].getLastD (FSNode.file "" "")) ∧
    ((sortByName [FSNode.file "b.py" "", FSNode.file "a.py" ""]).Pairwise
        (fun x y => nodeName x ≤ nodeName y) ∧
      (sortByName [FSNode.file "b.py" "", FSNode.file "a.py" ""]).Perm
        [FSNode.file "b.py" "", FSNode.file "a.py" ""]) :=
  ⟨claim_C7.1 (FSNode.dir "repo" [FSNode.file "b.py" "", FSNode.file "a.py" "",
      FSNode.file ".git" ""]),
   claim_C7.2.1 [FSNode.file "a.py" "", FSNode.file "b.py" ""] (by simp),
   claim_C7.2.2.1 [FSNode.file "a.py" "", FSNode.file "b.py" ""] ""
     (FSNode.file "" "") (by simp),
   claim_C7.2.2.2 [FSNode.file "b.py" "", FSNode.file "a.py" ""]⟩

end DocWeave
